import Mathlib

/-!
Shallow embedding of the `tui-canvas` core (src/cell.rs, src/grid.rs,
src/input/mouse.rs).

Modelling conventions:
- Rust `String` is `List Char`; `String::len` (UTF-8 byte length) is `byteLen`.
- Rust panics (failed `assert!`, arithmetic underflow with overflow checks,
  out-of-bounds `Vec` indexing) are modelled as `none` of an `Option` result.
- Terminal I/O performed by `draw` is modelled as the list of render actions
  the code would emit (cursor position including the ×2 column scaling, the
  color and text written); the actual byte stream and flushing are collaborator
  concerns outside the core.
- The event plumbing of `get_mouse_click` / `get_mouse_click_or_drag`
  (enabling mouse capture, reading one event, filtering on button/kind) is
  collaborator I/O; both functions share the identical coordinate-mapping
  logic on the raw `(column, row)` of an accepted event, embedded here as
  `get_mouse_click` taking the raw coordinates directly.
-/

namespace TuiCanvas

/-- The crossterm color palette (only structural identity matters to the core). -/
inductive Color where
  | reset
  | black
  | white
  | red
  | green
  | blue
  | yellow
  | magenta
  | cyan
deriving DecidableEq

/-- Size in UTF-8 bytes of one character, as Rust's `char::len_utf8`. -/
def charUtf8Size (c : Char) : Nat :=
  if c.toNat < 0x80 then 1
  else if c.toNat < 0x800 then 2
  else if c.toNat < 0x10000 then 3
  else 4

/-- Rust `String::len`: the length of the string in UTF-8 bytes. -/
def byteLen (s : List Char) : Nat :=
  (s.map charUtf8Size).sum

/-- Structure `Cell` from src/cell.rs: a background color and a text value. -/
structure Cell where
  color : Color
  value : List Char
deriving DecidableEq

/-- Function `Cell::build`: succeeds iff `value.len() == 2` (UTF-8 byte length). -/
def Cell.build (color : Color) (value : List Char) : Option Cell :=
  if byteLen value = 2 then some { color := color, value := value } else none

/-- Function `Cell::default`: `build(White, "  ")`, which always succeeds. -/
def Cell.default : Cell :=
  { color := Color.white, value := [' ', ' '] }

/-- Structure `Point` from src/grid.rs. -/
structure Point where
  x : Nat
  y : Nat
deriving DecidableEq

/-- Structure `Grid` from src/grid.rs: the cell storage, the buffered changes,
and the dimensions. -/
structure Grid where
  grid : List (List (Option Cell))
  changes : List Point
  width : Nat
  height : Nat
deriving DecidableEq

/-- Constructor `Grid::new`: asserts `width > 0` and `height > 0` (a failed assertion
panics, modelled as `none`), then builds `height` rows of `width` empty
cells with no buffered changes. -/
def Grid.new (width height : Nat) : Option Grid :=
  if 0 < width ∧ 0 < height then
    some { grid := List.replicate height (List.replicate width none)
         , changes := []
         , width := width
         , height := height }
  else none

/-- Constructor `Grid::new_full_screen`, given the `(width, height)` reported by
`crossterm::terminal::size()` (two `u16` values). The `u16` subtractions
`width - 1` and `height - 1` underflow when the reported value is `0`
(a panic under overflow checks, modelled as `none`); otherwise the result
is `Grid::new(width - 1, height - 1)`, whose assertion panics when a
reported value is `1`. -/
def Grid.new_full_screen (width height : Nat) : Option Grid :=
  if width = 0 ∨ height = 0 then none
  else Grid.new (width - 1) (height - 1)

/-- Method `Grid::set_cell`: rejects `x >= width || y >= height` with the error
string, otherwise stores the cell at row `y`, column `x` and appends the
point to the buffered changes. -/
def Grid.set_cell (g : Grid) (x y : Nat) (cell : Option Cell) :
    Except String Unit × Grid :=
  if g.width ≤ x ∨ g.height ≤ y then
    (Except.error "Cell outside of range", g)
  else
    (Except.ok (),
     { g with grid := g.grid.set y ((g.grid.getD y []).set x cell)
            , changes := g.changes ++ [Point.mk x y] })

/-- Method `Grid::get_cell`: checked access `self.grid.get(y)?.get(x)?`, collapsing
any out-of-range coordinate to `none`. -/
def Grid.get_cell (g : Grid) (x y : Nat) : Option Cell :=
  match g.grid.get? y with
  | none => none
  | some row =>
    match row.get? x with
    | none => none
    | some c => c

/-- One terminal write performed by `draw_cell` / `erase_cell` in
src/grid.rs: the cursor column already carries the ×2 scaling. -/
inductive RenderAction where
  | drawCell (col row : Nat) (cell : Cell)
  | eraseCell (col row : Nat)
deriving DecidableEq

/-- Free function `draw_cell`: move to `(x*2, y)`, set the background color,
print the two-character value. -/
def draw_cell (x y : Nat) (cell : Cell) : RenderAction :=
  RenderAction.drawCell (x * 2) y cell

/-- Free function `erase_cell`: move to `(x*2, y)`, reset the background,
print two spaces. -/
def erase_cell (x y : Nat) : RenderAction :=
  RenderAction.eraseCell (x * 2) y

/-- The render action for position `(x, y)` holding `oc`, as the `match` in
`draw_changes` / `draw_all`. -/
def renderAt (x y : Nat) (oc : Option Cell) : RenderAction :=
  match oc with
  | some cell => draw_cell x y cell
  | none => erase_cell x y

/-- Direct indexing `self.grid[y][x]`: `none` is an out-of-bounds panic. -/
def indexCell (g : Grid) (y x : Nat) : Option (Option Cell) :=
  match g.grid.get? y with
  | none => none
  | some row => row.get? x

/-- A `for` loop collecting one `Option` result per element, aborting on the
first `none` (the first panic). -/
def optionMapList {α β : Type} (f : α → Option β) : List α → Option (List β)
  | [] => some []
  | a :: l =>
    match f a, optionMapList f l with
    | some b, some bs => some (b :: bs)
    | _, _ => none

/-- Method `Grid::draw_changes`: render each buffered point by direct indexing into
the storage, then clear the buffered changes. -/
def Grid.draw_changes (g : Grid) : Option (List RenderAction × Grid) :=
  match optionMapList (fun p => (indexCell g p.y p.x).map (renderAt p.x p.y))
      g.changes with
  | some acts => some (acts, { g with changes := [] })
  | none => none

/-- One row of `Grid::draw_all`'s nested loop. -/
def Grid.draw_row (g : Grid) (y : Nat) : Option (List RenderAction) :=
  optionMapList (fun x => (indexCell g y x).map (renderAt x y))
    (List.range g.width)

/-- Method `Grid::draw_all`: render every position of the `height × width` nested
loop by direct indexing; the buffered changes are left untouched. -/
def Grid.draw_all (g : Grid) : Option (List RenderAction × Grid) :=
  match optionMapList (fun y => g.draw_row y) (List.range g.height) with
  | some rows => some (rows.flatten, g)
  | none => none

/-- Method `Grid::draw`: full redraw when the buffered changes are empty, otherwise
draw only the changes. -/
def Grid.draw (g : Grid) : Option (List RenderAction × Grid) :=
  if g.changes = [] then g.draw_all else g.draw_changes

/-- Well-formedness of a grid: the storage is `height` rows of `width`
columns and every buffered point is in bounds. -/
def Grid.Wf (g : Grid) : Prop :=
  g.grid.length = g.height ∧
  (∀ row ∈ g.grid, row.length = g.width) ∧
  (∀ p ∈ g.changes, p.x < g.width ∧ p.y < g.height)

instance : DecidablePred Grid.Wf := fun g => by
  unfold Grid.Wf
  infer_instance

/-- Coordinate mapping shared by `get_mouse_click` and
`get_mouse_click_or_drag` in src/input/mouse.rs, applied to the raw
`(column, row)` of an accepted press/drag event: halve the column, keep the
row, and reject with `none` when `x >= grid.width() && y >= grid.height()`. -/
def get_mouse_click (g : Grid) (column row : Nat) : Option (Nat × Nat) :=
  let x := column / 2
  let y := row
  if g.width ≤ x ∧ g.height ≤ y then none
  else some (x, y)

/-- A concrete 2×2 grid as built by `Grid::new(2, 2)`. -/
def sampleGrid : Grid :=
  { grid := List.replicate 2 (List.replicate 2 none)
  , changes := []
  , width := 2
  , height := 2 }

/-- A concrete 40×20 grid as built by `Grid::new(40, 20)`. -/
def wideGrid : Grid :=
  { grid := List.replicate 20 (List.replicate 40 none)
  , changes := []
  , width := 40
  , height := 20 }

/-! Helper lemmas -/

theorem optionMapList_length {α β : Type} (f : α → Option β) :
    ∀ {l : List α} {bs : List β},
      optionMapList f l = some bs → bs.length = l.length := by
  intro l
  induction l with
  | nil =>
    intro bs h
    simp only [optionMapList, Option.some.injEq] at h
    subst h
    rfl
  | cons a l ih =>
    intro bs h
    simp only [optionMapList] at h
    cases hfa : f a <;> rw [hfa] at h
    · exact absurd h (by simp)
    cases hml : optionMapList f l <;> rw [hml] at h
    · exact absurd h (by simp)
    simp only [Option.some.injEq] at h
    subst h
    simp [ih hml]

theorem optionMapList_isSome {α β : Type} (f : α → Option β) :
    ∀ {l : List α}, (∀ a ∈ l, (f a).isSome) →
      (optionMapList f l).isSome := by
  intro l
  induction l with
  | nil =>
    intro _
    simp [optionMapList]
  | cons a l ih =>
    intro h
    obtain ⟨b, hb⟩ := Option.isSome_iff_exists.mp (h a (by simp))
    obtain ⟨bs, hbs⟩ := Option.isSome_iff_exists.mp
      (ih (fun x hx => h x (by simp [hx])))
    simp [optionMapList, hb, hbs]

theorem optionMapList_mem {α β : Type} (f : α → Option β) :
    ∀ {l : List α} {bs : List β},
      optionMapList f l = some bs → ∀ b ∈ bs, ∃ a ∈ l, f a = some b := by
  intro l
  induction l with
  | nil =>
    intro bs h
    simp only [optionMapList, Option.some.injEq] at h
    subst h
    simp
  | cons a l ih =>
    intro bs h
    simp only [optionMapList] at h
    cases hfa : f a <;> rw [hfa] at h
    · exact absurd h (by simp)
    cases hml : optionMapList f l <;> rw [hml] at h
    · exact absurd h (by simp)
    simp only [Option.some.injEq] at h
    subst h
    intro b hb
    rcases List.mem_cons.mp hb with hb | hb
    · exact ⟨a, by simp, by rw [hfa, hb]⟩
    · obtain ⟨a2, ha2, hfa2⟩ := ih hml b hb
      exact ⟨a2, by simp [ha2], hfa2⟩

theorem indexCell_isSome_of_wf {g : Grid} (hwf : g.Wf) {x y : Nat}
    (hx : x < g.width) (hy : y < g.height) :
    (indexCell g y x).isSome := by
  obtain ⟨hlen, hrows, _⟩ := hwf
  have hy2 : y < g.grid.length := by rw [hlen]; exact hy
  have hrow := List.get?_eq_get hy2
  have hx2 : x < (g.grid.get ⟨y, hy2⟩).length := by
    rw [hrows _ (List.get_mem g.grid y hy2)]
    exact hx
  have hcell := List.get?_eq_get hx2
  rw [List.get?_eq_getElem?] at hrow hcell
  simp only [List.get_eq_getElem] at hrow hcell
  simp [indexCell, List.get?_eq_getElem?, hrow, hcell]

theorem sum_map_length_const {α : Type} (rows : List (List α)) (w : Nat)
    (hw : ∀ r ∈ rows, r.length = w) :
    (rows.map List.length).sum = rows.length * w := by
  induction rows with
  | nil => simp
  | cons r rs ih =>
    simp only [List.map_cons, List.sum_cons, List.length_cons]
    rw [hw r (by simp), ih (fun r2 hr => hw r2 (by simp [hr]))]
    ring

theorem draw_row_length {g : Grid} {y : Nat} {row : List RenderAction}
    (h : g.draw_row y = some row) : row.length = g.width := by
  have := optionMapList_length _ h
  simpa using this

theorem draw_row_isSome_of_wf {g : Grid} (hwf : g.Wf) {y : Nat}
    (hy : y < g.height) : (g.draw_row y).isSome := by
  refine optionMapList_isSome _ (fun x hx => ?_)
  have hx2 : x < g.width := List.mem_range.mp hx
  have := indexCell_isSome_of_wf hwf hx2 hy
  simp [Option.isSome_map]
  exact Option.isSome_iff_exists.mp this |>.elim (fun oc hoc => by simp [hoc])

theorem draw_all_full {g : Grid} (hwf : g.Wf) :
    ∃ acts, g.draw_all = some (acts, g) ∧
      acts.length = g.width * g.height := by
  have houter : (optionMapList (fun y => g.draw_row y)
      (List.range g.height)).isSome := by
    refine optionMapList_isSome _ (fun y hy => ?_)
    exact draw_row_isSome_of_wf hwf (List.mem_range.mp hy)
  obtain ⟨rows, hrows⟩ := Option.isSome_iff_exists.mp houter
  refine ⟨rows.flatten, ?_, ?_⟩
  · simp [Grid.draw_all, hrows]
  · have hlen : rows.length = g.height := by
      have := optionMapList_length _ hrows
      simpa using this
    have hall : ∀ r ∈ rows, r.length = g.width := by
      intro r hr
      obtain ⟨y, _, hy2⟩ := optionMapList_mem _ hrows r hr
      exact draw_row_length hy2
    rw [List.length_flatten, sum_map_length_const rows g.width hall, hlen]
    ring

theorem draw_changes_wf {g : Grid} (hwf : g.Wf) :
    ∃ acts, g.draw_changes = some (acts, { g with changes := [] }) := by
  have h : (optionMapList
      (fun p => (indexCell g p.y p.x).map (renderAt p.x p.y))
      g.changes).isSome := by
    refine optionMapList_isSome _ (fun p hp => ?_)
    obtain ⟨hx, hy⟩ := hwf.2.2 p hp
    have := indexCell_isSome_of_wf hwf hx hy
    obtain ⟨oc, hoc⟩ := Option.isSome_iff_exists.mp this
    simp [hoc]
  obtain ⟨acts, hacts⟩ := Option.isSome_iff_exists.mp h
  exact ⟨acts, by simp [Grid.draw_changes, hacts]⟩

theorem getD_of_get? {α : Type} {l : List α} {n : Nat} {r : α} (d : α)
    (h : l.get? n = some r) : l.getD n d = r := by
  rw [List.getD_eq_getElem?_getD, ← List.get?_eq_getElem?, h]
  rfl

theorem get_cell_eq {g : Grid} {y : Nat} {row : List (Option Cell)}
    (hrow : g.grid.get? y = some row) (x : Nat) :
    g.get_cell x y = (row.get? x).getD none := by
  unfold Grid.get_cell
  rw [hrow]
  cases h : row.get? x <;>
    rw [List.get?_eq_getElem?] at h <;>
    simp [List.get?_eq_getElem?, h]

theorem get_cell_none {g : Grid} {y : Nat} (h : g.grid.get? y = none)
    (x : Nat) : g.get_cell x y = none := by
  unfold Grid.get_cell
  rw [h]

/-! Claim theorems -/

/-- Claim C3 counterexample: the claim says `Cell::build` succeeds exactly on
two-character values, for all strings including multi-byte ones; but the code
tests `value.len() == 2`, the UTF-8 byte length. The one-character string
`"¡"` (U+00A1, two UTF-8 bytes) builds successfully despite having one
character. -/
theorem cell_build_char_count_counterexample :
    (Cell.build Color.white [Char.ofNat 161]).isSome = true ∧
    [Char.ofNat 161].length = 1 := by
  decide

/-- Claim C3 (amended): `Cell::build(color, value)` returns a cell iff `value` has
UTF-8 byte length exactly 2 (which coincides with two characters only for
ASCII values). -/
theorem cell_build_iff_byte_length (color : Color) (value : List Char) :
    (Cell.build color value).isSome ↔ byteLen value = 2 := by
  by_cases h : byteLen value = 2 <;> simp [Cell.build, h]

/-- Claim C2: the claim (and the code's own doc comment, "`None` if the click is
outside the grid") says a mapped coordinate past either bound yields no cell;
the code rejects only when the click is past BOTH bounds
(`x >= width && y >= height`). On a 40×20 grid, a raw click at column 100,
row 5 maps to `x = 50 ≥ 40` yet is accepted as `(50, 5)`. -/
theorem mouse_click_and_bound_bug :
    Grid.new 40 20 = some wideGrid ∧
    get_mouse_click wideGrid 100 5 = some (50, 5) ∧
    wideGrid.width ≤ 50 := by
  refine ⟨by rfl, by decide, by decide⟩

/-- Claim C9: every raw click accepted by the mouse-coordinate mapping yields grid
coordinates `(column / 2, row)` — the column halved by integer division, the
row unchanged. -/
theorem mouse_click_halves_column (g : Grid) (column row : Nat)
    (p : Nat × Nat) (h : get_mouse_click g column row = some p) :
    p = (column / 2, row) := by
  simp only [get_mouse_click] at h
  by_cases hc : g.width ≤ column / 2 ∧ g.height ≤ row
  · simp [hc] at h
  · simp only [if_neg hc, Option.some.injEq] at h
    exact h.symm

/-- Claim C9 witness: on a 40×20 grid, a raw click at terminal column 10, row 5 is
accepted and maps to grid cell `(5, 5) = (10 / 2, 5)`. -/
theorem mouse_click_halves_column_witness :
    get_mouse_click wideGrid 10 5 = some (5, 5) ∧
    (5, 5) = (10 / 2, 5) :=
  ⟨by decide, mouse_click_halves_column wideGrid 10 5 (5, 5) (by decide)⟩

/-- Claim C4: `set_cell` is atomic — on any out-of-range `(x, y)` it returns the
out-of-range error with the grid returned bit-for-bit identical, and on any
in-bounds `(x, y)` it succeeds with the change recorded. -/
theorem set_cell_atomic (g : Grid) (x y : Nat) (c : Option Cell) :
    ((g.width ≤ x ∨ g.height ≤ y) →
      g.set_cell x y c = (Except.error "Cell outside of range", g)) ∧
    (x < g.width → y < g.height →
      (g.set_cell x y c).1 = Except.ok () ∧
      (g.set_cell x y c).2.changes = g.changes ++ [Point.mk x y]) := by
  constructor
  · intro h
    simp [Grid.set_cell, if_pos h]
  · intro hx hy
    have h : ¬(g.width ≤ x ∨ g.height ≤ y) := by omega
    simp [Grid.set_cell, if_neg h]

/-- Claim C4 witness: on the 40×20 grid, `set_cell(100, 5, …)` fails with the
out-of-range error and the identical grid, while `set_cell(1, 1, …)` succeeds
and records the point. -/
theorem set_cell_atomic_witness :
    wideGrid.set_cell 100 5 (some Cell.default) =
      (Except.error "Cell outside of range", wideGrid) ∧
    ((wideGrid.set_cell 1 1 (some Cell.default)).1 = Except.ok () ∧
     (wideGrid.set_cell 1 1 (some Cell.default)).2.changes =
       wideGrid.changes ++ [Point.mk 1 1]) :=
  ⟨(set_cell_atomic wideGrid 100 5 (some Cell.default)).1 (by decide),
   (set_cell_atomic wideGrid 1 1 (some Cell.default)).2 (by decide) (by decide)⟩

/-- Claim C5: on a well-formed grid, a successful in-bounds `set_cell(x, y, c)`
makes `get_cell(x, y)` return `c` and leaves `get_cell` at every other
coordinate unchanged. -/
theorem set_cell_then_get_cell (g : Grid) (x y : Nat) (c : Option Cell)
    (hwf : g.Wf) (hx : x < g.width) (hy : y < g.height) :
    (g.set_cell x y c).1 = Except.ok () ∧
    (g.set_cell x y c).2.get_cell x y = c ∧
    ∀ x2 y2, ¬(x2 = x ∧ y2 = y) →
      (g.set_cell x y c).2.get_cell x2 y2 = g.get_cell x2 y2 := by
  have hcond : ¬(g.width ≤ x ∨ g.height ≤ y) := by omega
  have hy2 : y < g.grid.length := by rw [hwf.1]; exact hy
  have hrowget : g.grid.get? y = some (g.grid.get ⟨y, hy2⟩) :=
    List.get?_eq_get hy2
  have hgetD : g.grid.getD y [] = g.grid.get ⟨y, hy2⟩ :=
    getD_of_get? [] hrowget
  have hrowlen : (g.grid.get ⟨y, hy2⟩).length = g.width :=
    hwf.2.1 _ (List.get_mem g.grid y hy2)
  have hx2 : x < (g.grid.get ⟨y, hy2⟩).length := by rw [hrowlen]; exact hx
  have hres : (g.set_cell x y c).2.grid =
      g.grid.set y ((g.grid.get ⟨y, hy2⟩).set x c) := by
    simp only [Grid.set_cell, if_neg hcond]
    rw [hgetD]
  refine ⟨by simp [Grid.set_cell, if_neg hcond], ?_, ?_⟩
  · have hget : ((g.set_cell x y c).2).grid.get? y =
        some ((g.grid.get ⟨y, hy2⟩).set x c) := by
      rw [hres]
      exact List.get?_set_eq_of_lt _ hy2
    rw [get_cell_eq hget, List.get?_set_eq_of_lt c hx2]
    rfl
  · intro x2 y2 hne
    by_cases hyy : y2 = y
    · have hxx : x2 ≠ x := fun hc => hne ⟨hc, hyy⟩
      have hget : ((g.set_cell x y c).2).grid.get? y2 =
          some ((g.grid.get ⟨y, hy2⟩).set x c) := by
        rw [hres, hyy]
        exact List.get?_set_eq_of_lt _ hy2
      have hor2 : g.grid.get? y2 = some (g.grid.get ⟨y, hy2⟩) := by
        rw [hyy]
        exact hrowget
      rw [get_cell_eq hget, get_cell_eq hor2,
        List.get?_set_ne c _ (fun hc => hxx hc.symm)]
    · have hget : ((g.set_cell x y c).2).grid.get? y2 = g.grid.get? y2 := by
        rw [hres]
        exact List.get?_set_ne _ _ (fun hc => hyy hc.symm)
      cases hor : g.grid.get? y2 with
      | none =>
        rw [get_cell_none (by rw [hget, hor]) x2, get_cell_none hor x2]
      | some row2 =>
        rw [get_cell_eq (by rw [hget, hor]) x2, get_cell_eq hor x2]

/-- Claim C5 witness: on the fresh 2×2 grid, `set_cell(0, 1, default)` succeeds,
`get_cell(0, 1)` then returns the default cell, and `get_cell(1, 1)` is
unchanged. -/
theorem set_cell_then_get_cell_witness :
    (sampleGrid.set_cell 0 1 (some Cell.default)).1 = Except.ok () ∧
    (sampleGrid.set_cell 0 1 (some Cell.default)).2.get_cell 0 1 =
      some Cell.default ∧
    (sampleGrid.set_cell 0 1 (some Cell.default)).2.get_cell 1 1 =
      sampleGrid.get_cell 1 1 := by
  have h := set_cell_then_get_cell sampleGrid 0 1 (some Cell.default)
    (by decide) (by decide) (by decide)
  exact ⟨h.1, h.2.1, h.2.2 1 1 (by decide)⟩

/-- Claim C6: `Grid::new(width, height)` succeeds for every positive width and
height, yielding a grid with the requested dimensions, an empty
pending-changes list, and `get_cell(x, y)` empty at every in-bounds
coordinate; it panics (modelled as `none`) exactly when `width == 0` or
`height == 0`. -/
theorem grid_new_spec (width height : Nat) :
    (0 < width → 0 < height → ∃ g, Grid.new width height = some g ∧
      g.changes = [] ∧ g.width = width ∧ g.height = height ∧
      ∀ x y, x < width → y < height → g.get_cell x y = none) ∧
    (Grid.new width height = none ↔ width = 0 ∨ height = 0) := by
  constructor
  · intro hw hh
    refine ⟨{ grid := List.replicate height (List.replicate width none)
            , changes := [], width := width, height := height },
      by simp [Grid.new, hw, hh], rfl, rfl, rfl, ?_⟩
    intro x y hx hy
    have hrow : (List.replicate height
        (List.replicate width (none : Option Cell))).get? y =
        some (List.replicate width none) := by
      simp [List.get?_eq_getElem?, hy]
    rw [get_cell_eq hrow]
    simp [List.get?_eq_getElem?, hx]
  · by_cases h : 0 < width ∧ 0 < height <;> simp [Grid.new, h] <;> omega

/-- Claim C6 witness: `Grid::new(2, 3)` succeeds with empty pending changes and
every in-bounds cell empty. -/
theorem grid_new_spec_witness :
    ∃ g, Grid.new 2 3 = some g ∧ g.changes = [] ∧ g.width = 2 ∧
      g.height = 3 ∧ ∀ x y, x < 2 → y < 3 → g.get_cell x y = none :=
  (grid_new_spec 2 3).1 (by decide) (by decide)

/-- Claim C7: on a well-formed grid, `get_cell` at any out-of-range coordinate
returns empty; the embedding makes it a total pure function, so it never
errors, never panics, and does not modify the grid. -/
theorem get_cell_out_of_range (g : Grid) (x y : Nat) (hwf : g.Wf)
    (h : g.width ≤ x ∨ g.height ≤ y) : g.get_cell x y = none := by
  rcases Nat.lt_or_ge y g.height with hy | hy
  · have hx : g.width ≤ x := by
      rcases h with h1 | h1
      · exact h1
      · omega
    have hy2 : y < g.grid.length := by rw [hwf.1]; exact hy
    have hrowget : g.grid.get? y = some (g.grid.get ⟨y, hy2⟩) :=
      List.get?_eq_get hy2
    have hxlen : (g.grid.get ⟨y, hy2⟩).length ≤ x := by
      rw [hwf.2.1 _ (List.get_mem g.grid y hy2)]
      exact hx
    rw [get_cell_eq hrowget, List.get?_len_le hxlen]
    rfl
  · have hlen : g.grid.length = g.height := hwf.1
    have hnone : g.grid.get? y = none := List.get?_len_le (by omega)
    exact get_cell_none hnone x

/-- Claim C7 witness: on the fresh 2×2 grid, `get_cell(5, 0)` returns empty. -/
theorem get_cell_out_of_range_witness : sampleGrid.get_cell 5 0 = none :=
  get_cell_out_of_range sampleGrid 5 0 (by decide) (Or.inl (by decide))

/-- Claim C8: the grid invariant — storage of exactly `height` rows of exactly
`width` columns, every buffered point in bounds — holds after `Grid::new`
and is preserved by `set_cell` and `draw`; consequently the direct indexing
`self.grid[y][x]` that `draw_changes` performs on every buffered point is in
bounds (never panics), and `draw` itself succeeds. -/
theorem grid_wf_invariant :
    (∀ w h g, Grid.new w h = some g → g.Wf) ∧
    (∀ (g : Grid) (x y : Nat) (c : Option Cell), g.Wf →
      ((g.set_cell x y c).2).Wf) ∧
    (∀ g : Grid, g.Wf → ∃ acts g2, g.draw = some (acts, g2) ∧ g2.Wf) ∧
    (∀ g : Grid, g.Wf → ∀ p ∈ g.changes, (indexCell g p.y p.x).isSome) := by
  refine ⟨?_, ?_, ?_, ?_⟩
  · intro w h g hnew
    unfold Grid.new at hnew
    by_cases hc : 0 < w ∧ 0 < h
    · rw [if_pos hc, Option.some.injEq] at hnew
      subst hnew
      refine ⟨by simp, ?_, by simp⟩
      intro row hrow
      rw [List.eq_of_mem_replicate hrow]
      simp
    · rw [if_neg hc] at hnew
      exact absurd hnew (by simp)
  · intro g x y c hwf
    by_cases hc : g.width ≤ x ∨ g.height ≤ y
    · simpa [Grid.set_cell, if_pos hc] using hwf
    · have hx : x < g.width := by omega
      have hy : y < g.height := by omega
      have hy2 : y < g.grid.length := by rw [hwf.1]; exact hy
      refine ⟨?_, ?_, ?_⟩
      · simp only [Grid.set_cell, if_neg hc]
        rw [List.length_set]
        exact hwf.1
      · simp only [Grid.set_cell, if_neg hc]
        intro row hrow
        rcases List.mem_or_eq_of_mem_set hrow with hmem | heq
        · exact hwf.2.1 row hmem
        · subst heq
          rw [List.length_set]
          have hrowget : g.grid.get? y = some (g.grid.get ⟨y, hy2⟩) :=
            List.get?_eq_get hy2
          rw [getD_of_get? [] hrowget]
          exact hwf.2.1 _ (List.get_mem g.grid y hy2)
      · simp only [Grid.set_cell, if_neg hc]
        intro p hp
        rcases List.mem_append.mp hp with hmem | hmem
        · exact hwf.2.2 p hmem
        · rw [List.mem_singleton.mp hmem]
          exact ⟨hx, hy⟩
  · intro g hwf
    by_cases hch : g.changes = []
    · obtain ⟨acts, h1, _⟩ := draw_all_full hwf
      exact ⟨acts, g, by simp [Grid.draw, hch, h1], hwf⟩
    · obtain ⟨acts, h1⟩ := draw_changes_wf hwf
      refine ⟨acts, { g with changes := [] },
        by simp [Grid.draw, hch, h1], ?_⟩
      exact ⟨hwf.1, hwf.2.1, by simp⟩
  · intro g hwf p hp
    obtain ⟨hx, hy⟩ := hwf.2.2 p hp
    exact indexCell_isSome_of_wf hwf hx hy

/-- Claim C8 witness: the invariant holds concretely after `Grid::new(2, 2)` and
after a `set_cell`, and `draw` succeeds on the fresh 2×2 grid. -/
theorem grid_wf_invariant_witness :
    ((sampleGrid.set_cell 0 1 (some Cell.default)).2).Wf ∧
    (∃ acts g2, sampleGrid.draw = some (acts, g2) ∧ g2.Wf) :=
  ⟨grid_wf_invariant.2.1 sampleGrid 0 1 (some Cell.default) (by decide),
   grid_wf_invariant.2.2.1 sampleGrid (by decide)⟩

/-- Claim C1 counterexample: the claim says the second of two `draw()` calls with
no intervening `set_cell` renders nothing. Starting from `Grid::new(2, 2)`
(empty pending set), the first `draw()` leaves the pending set empty, so the
second `draw()` again takes the full-redraw branch and emits
4 = 2 × 2 render actions, not 0. -/
theorem draw_twice_counterexample :
    ((Grid.new 2 2).bind (fun g => g.draw)).bind
        (fun p => (p.2.draw).map (fun q => q.1.length)) = some 4 ∧
    (4 : Nat) ≠ 0 := by
  decide

/-- Claim C1 (amended): `draw()` on any well-formed grid whose pending-changes set
is empty performs a full redraw of all `width × height` positions and
returns the grid unchanged (pending set still empty); hence calling `draw()`
twice with no intervening `set_cell` performs the identical full redraw both
times — the full redraw happens whenever the pending set is empty, not only
before the first draw, and the second call is not a no-op. -/
theorem draw_empty_changes_full_redraw (g : Grid) (hwf : g.Wf)
    (hch : g.changes = []) :
    ∃ acts, g.draw = some (acts, g) ∧
      acts.length = g.width * g.height := by
  obtain ⟨acts, h1, h2⟩ := draw_all_full hwf
  exact ⟨acts, by simp [Grid.draw, hch, h1], h2⟩

/-- Claim C1 witness: the fresh 2×2 grid draws all 4 positions and comes back
unchanged, so a repeated `draw()` does exactly the same. -/
theorem draw_empty_changes_full_redraw_witness :
    ∃ acts, sampleGrid.draw = some (acts, sampleGrid) ∧
      acts.length = sampleGrid.width * sampleGrid.height :=
  draw_empty_changes_full_redraw sampleGrid (by decide) rfl

/-- Claim C10: `Grid::new_full_screen` returns a grid without panicking iff both
dimensions reported by the terminal are at least 2, and then the grid is
sized to one less than each reported dimension; a reported 0 panics in the
`u16` subtraction (underflow), a reported 1 panics in `Grid::new`'s
positivity assertion — both modelled as `none`, never an error value. -/
theorem new_full_screen_spec (w h : Nat) :
    (2 ≤ w → 2 ≤ h → ∃ g, Grid.new_full_screen w h = some g ∧
      g.width = w - 1 ∧ g.height = h - 1) ∧
    (w < 2 ∨ h < 2 → Grid.new_full_screen w h = none) := by
  constructor
  · intro hw hh
    have h0 : ¬(w = 0 ∨ h = 0) := by omega
    have hpos : 0 < w - 1 ∧ 0 < h - 1 := by omega
    refine ⟨{ grid := List.replicate (h - 1)
                (List.replicate (w - 1) none)
            , changes := [], width := w - 1, height := h - 1 },
      ?_, rfl, rfl⟩
    simp [Grid.new_full_screen, h0, Grid.new, hpos]
  · intro hcase
    by_cases h0 : w = 0 ∨ h = 0
    · simp [Grid.new_full_screen, h0]
    · have hneg : ¬(0 < w - 1 ∧ 0 < h - 1) := by omega
      simp [Grid.new_full_screen, h0, Grid.new, hneg]
      omega

/-- Claim C10 witness: a reported terminal size of 5×7 yields a 4×6 grid, while a
reported width of 1 panics (no grid). -/
theorem new_full_screen_spec_witness :
    (∃ g, Grid.new_full_screen 5 7 = some g ∧ g.width = 4 ∧
      g.height = 6) ∧
    Grid.new_full_screen 1 5 = none :=
  ⟨(new_full_screen_spec 5 7).1 (by decide) (by decide),
   (new_full_screen_spec 1 5).2 (Or.inl (by decide))⟩

end TuiCanvas
